import Mathlib

/-!
Shallow embedding of the fall-detection dataset-preparation scripts
(`data.py`, `utils.py`, `u1.py`) and proofs about them.

The scripts are sequential, effectful Python; the embedding turns each of
them into a pure function from its inputs (annotation-file lines, an
abstract video/file-system environment) to the list of observable effects
it performs (diagnostic log entries, image writes, file copies), in
program order.  External library calls (video decode, image resize/write,
file copy) are modelled through their documented interfaces.
-/

namespace FallDetection

/-! ## Models of the Python string / number primitives used by the scripts -/

/-- Model of Python `str.strip()` on a character list: drop leading and
trailing whitespace. -/
def stripChars (l : List Char) : List Char :=
  ((l.dropWhile Char.isWhitespace).reverse.dropWhile Char.isWhitespace).reverse

/-- Model of Python `str.strip()`. -/
def pyStrip (s : String) : String :=
  String.mk (stripChars s.data)

/-- Auxiliary splitter: split a character list at every occurrence of the
separator character, keeping empty pieces (Python `str.split(sep)`
semantics: `"".split(",") == [""]`). -/
def splitCharsAux (c : Char) : List Char → List Char → List (List Char)
  | [], acc => [acc.reverse]
  | x :: xs, acc =>
    if x = c then acc.reverse :: splitCharsAux c xs []
    else splitCharsAux c xs (x :: acc)

/-- Model of Python `str.split(sep)` for a one-character separator. -/
def pySplit (s : String) (c : Char) : List String :=
  (splitCharsAux c s.data []).map String.mk

/-- Decimal value of a digit list (most significant first). -/
def digitsVal (l : List Char) : Nat :=
  l.foldl (fun a c => a * 10 + (c.toNat - 48)) 0

/-- Model of Python `int(s)`: strip whitespace, optional sign, then one or
more decimal digits; `none` models the `ValueError` raised otherwise. -/
def pyInt? (s : String) : Option Int :=
  match stripChars s.data with
  | [] => none
  | '+' :: rest =>
    if rest ≠ [] ∧ rest.all Char.isDigit then some (Int.ofNat (digitsVal rest)) else none
  | '-' :: rest =>
    if rest ≠ [] ∧ rest.all Char.isDigit then some (-(Int.ofNat (digitsVal rest))) else none
  | l =>
    if l.all Char.isDigit then some (Int.ofNat (digitsVal l)) else none

/-- Resolve one endpoint of a Python slice `l[a:b]` against length `n`:
negative indices count from the end, both ends are clamped to `[0, n]`. -/
def pySliceResolve (n : Nat) (i : Int) : Nat :=
  if i < 0 then ((n : Int) + i).toNat else min i.toNat n

/-- Model of Python list slicing `l[a:b]`. -/
def pySlice {α : Type} (l : List α) (a b : Int) : List α :=
  (l.take (pySliceResolve l.length b)).drop (pySliceResolve l.length a)

/-- Model of Python `int(x)` applied to a (non-integral or integral)
number: truncation toward zero. -/
def pyTrunc (q : ℚ) : Int :=
  if q < 0 then ⌈q⌉ else ⌊q⌋

/-- Model of `os.path.join(a, b)` for the paths the scripts build (no
absolute second component, first component not ending in a separator). -/
def pathJoin (a b : String) : String :=
  a ++ "/" ++ b

/-- Model of `os.path.basename`: the part of the path after the last
separator. -/
def basename (s : String) : String :=
  ((pySplit s '/').getLast?).getD s

/-! ## Data model of the frame extractor -/

/-- A decoded video frame or derived image; only the pixel-array
dimensions (`frame.shape` height and width) are modelled. -/
structure Image where
  height : Nat
  width : Nat
deriving Repr, DecidableEq

/-- Model of `cv.resize(img, (w, h), interpolation=cv.INTER_LINEAR)`: the
library's contract is that the result has exactly the requested
dimensions. -/
def cvResize (_img : Image) (w h : Nat) : Image :=
  { height := h, width := w }

/-- Length of a numpy axis slice `a:b` on an axis of size `n`, for the
non-negative bounds produced by the scripts. -/
def sliceLen (n : Nat) (a b : Int) : Nat :=
  (min b (n : Int) - min a (n : Int)).toNat

/-- Model of the numpy crop `frame[yStart:yEnd, xStart:xEnd]`. -/
def cropFrame (frame : Image) (yStart yEnd xStart xEnd : Int) : Image :=
  { height := sliceLen frame.height yStart yEnd
    width := sliceLen frame.width xStart xEnd }

/-- External environment of one extractor run: `readFrame n` models
`video.set(cv.CAP_PROP_POS_FRAMES, n - 1)` followed by `video.read()`
(`none` = read failure), and `imwriteOk p` models the success value
returned by `cv.imwrite(p, img)`. -/
structure Env where
  readFrame : Int → Option Image
  imwriteOk : String → Bool

/-- A parsed bounding-box record: fields 0, 2, 3, 4, 5 of a
comma-separated annotation line. -/
structure BBox where
  frameNum : Int
  xCenter : Int
  yCenter : Int
  width : Int
  height : Int
deriving Repr, DecidableEq

/-- Outcome of parsing one comma-separated bounding-box line. -/
inductive ParseResult where
  /-- Fewer than 6 comma-separated fields. -/
  | malformed : ParseResult
  /-- Some used field is not an integer (Python `ValueError`, caught). -/
  | parseError : ParseResult
  /-- All fields parse but `width <= 0 or height <= 0`. -/
  | invalidDims : ParseResult
  /-- A valid record. -/
  | ok : BBox → ParseResult
deriving Repr, DecidableEq

/-- Parse one annotation line as a bounding-box record, following the
scripts: strip, split on a comma, require at least 6 fields, convert
fields 0, 2, 3, 4, 5 with `int()`, then reject non-positive
width/height. -/
def parseBBoxLine (line : String) : ParseResult :=
  let fields := pySplit (pyStrip line) ','
  if fields.length < 6 then .malformed
  else
    match pyInt? (fields.getD 0 ""), pyInt? (fields.getD 2 ""),
      pyInt? (fields.getD 3 ""), pyInt? (fields.getD 4 ""), pyInt? (fields.getD 5 "") with
    | some f, some xc, some yc, some w, some h =>
      if w ≤ 0 ∨ h ≤ 0 then .invalidDims
      else .ok { frameNum := f, xCenter := xc, yCenter := yc, width := w, height := h }
    | _, _, _, _, _ => .parseError

/-- The crop box computed by the scripts (Python `//` is floor
division, `Int.fdiv`): `(xStart, yStart, xEnd, yEnd)`. -/
def cropBounds (b : BBox) (frame : Image) : Int × Int × Int × Int :=
  (max 0 (b.xCenter - Int.fdiv b.width 2),
   max 0 (b.yCenter - Int.fdiv b.height 2),
   min (frame.width : Int) (b.xCenter + Int.fdiv b.width 2),
   min (frame.height : Int) (b.yCenter + Int.fdiv b.height 2))

/-- Modelled from the spec: the crop-box formula as the specification
words it, with integer division truncating toward zero (`Int.tdiv`). -/
def cropBoundsSpec (b : BBox) (frame : Image) : Int × Int × Int × Int :=
  (max 0 (b.xCenter - Int.tdiv b.width 2),
   max 0 (b.yCenter - Int.tdiv b.height 2),
   min (frame.width : Int) (b.xCenter + Int.tdiv b.width 2),
   min (frame.height : Int) (b.yCenter + Int.tdiv b.height 2))

/-- Diagnostic categories, one per `print` site in the scripts. -/
inductive LogTag where
  | cannotOpenVideo : LogTag
  | emptyLine : LogTag
  | malformed : LogTag
  | invalidDims : LogTag
  | parseError : LogTag
  | cannotReadFrame : LogTag
  | invalidCrop : LogTag
  | saveError : LogTag
  | missingAnnotFile : LogTag
  | noFilesNoFall : LogTag
  | noFilesFall : LogTag
deriving Repr, DecidableEq

/-- Observable effect of the extractor, in program order: a diagnostic or
an `imwrite` call (with the directory, frame number, image passed, and
the success flag the call returned). -/
inductive Event where
  | log : LogTag → Event
  | write : String → Int → Image → Bool → Event
deriving Repr, DecidableEq

/-- The image-file path the extractor writes:
`os.path.join(dir, f"...jpg")` keyed by the frame number. -/
def writePath (dir : String) (n : Int) : String :=
  pathJoin dir (toString n ++ ".jpg")

/-- The destination choice of the two-directory extractor
(`data.py` lines 71-74): the fall directory exactly when
`fall_start <= frame_num <= fall_end`. -/
def chooseDirData (fallDir noFallDir : String) (fallStart fallEnd n : Int) : String :=
  if fallStart ≤ n ∧ n ≤ fallEnd then fallDir else noFallDir

/-- Process one valid bounding-box record: read the frame, compute and
validate the crop box, crop, resize, and write; `chooseDir` abstracts the
destination choice (interval-based in `data.py`, constant in
`utils.py`). -/
def processRecord (env : Env) (chooseDir : Int → String) (imageSize : Nat) (b : BBox) :
    List Event :=
  match env.readFrame b.frameNum with
  | none => [.log .cannotReadFrame]
  | some frame =>
    let bounds := cropBounds b frame
    let xStart := bounds.1
    let yStart := bounds.2.1
    let xEnd := bounds.2.2.1
    let yEnd := bounds.2.2.2
    if xStart ≥ xEnd ∨ yStart ≥ yEnd then [.log .invalidCrop]
    else
      let cropped := cropFrame frame yStart yEnd xStart xEnd
      let resized := cvResize cropped imageSize imageSize
      let dir := chooseDir b.frameNum
      let ok := env.imwriteOk (writePath dir b.frameNum)
      .write dir b.frameNum resized ok :: (if ok then [] else [.log .saveError])

/-- Uncaught Python exceptions reaching the top of an extractor run. -/
inductive PyError where
  /-- `int()` on a non-integer fall-interval header line. -/
  | valueError : PyError
  /-- Comparison against a still-`None` interval bound. -/
  | typeError : PyError
deriving Repr, DecidableEq

namespace Data

/-- Loop state of `data.py`'s `crop_frames_using_annotations`:
`fall_start_frame` and `fall_end_frame`, initially `None`. -/
def ExtState : Type := Option Int × Option Int

/-- One iteration of the per-line loop of `data.py` (lines 16-79): lines
1 and 2 are converted with a bare `int()` (failure is an uncaught
`ValueError`); later lines are bounding-box records whose failures are
logged and skipped. -/
def procLine (env : Env) (fallDir noFallDir : String) (imageSize : Nat)
    (st : ExtState) (lineNum : Nat) (line : String) :
    Except PyError (ExtState × List Event) :=
  if lineNum = 1 then
    match pyInt? (pyStrip line) with
    | none => .error .valueError
    | some v => .ok ((some v, st.2), [])
  else if lineNum = 2 then
    match pyInt? (pyStrip line) with
    | none => .error .valueError
    | some v => .ok ((st.1, some v), [])
  else
    match parseBBoxLine line with
    | .malformed => .ok (st, [.log .malformed])
    | .parseError => .ok (st, [.log .parseError])
    | .invalidDims => .ok (st, [.log .invalidDims])
    | .ok b =>
      match st with
      | (some s, some e) =>
        .ok (st, processRecord env (chooseDirData fallDir noFallDir s e) imageSize b)
      | _ => .error .typeError

/-- The per-line loop of `data.py`, threading the interval state and the
line counter; an uncaught exception aborts the rest of the file. -/
def runLines (env : Env) (fallDir noFallDir : String) (imageSize : Nat) :
    ExtState → Nat → List String → Except PyError (List Event)
  | _, _, [] => .ok []
  | st, n, line :: rest =>
    match procLine env fallDir noFallDir imageSize st n line with
    | .error e => .error e
    | .ok (st', evs) =>
      match runLines env fallDir noFallDir imageSize st' (n + 1) rest with
      | .error e => .error e
      | .ok evs' => .ok (evs ++ evs')

/-- `data.py`'s `crop_frames_using_annotations`: the two-directory
extractor over the lines of one annotation file.  `opened` models
`video.isOpened()`. -/
def crop_frames_using_annotations (env : Env) (opened : Bool) (lines : List String)
    (fallDir noFallDir : String) (imageSize : Nat) : Except PyError (List Event) :=
  if !opened then .ok [.log .cannotOpenVideo]
  else runLines env fallDir noFallDir imageSize (none, none) 1 lines

/-- One (video, annotation) work item of the batch driver: whether the
expected annotation file exists, whether the video opens, and the
annotation lines. -/
structure VideoInput where
  annotFileExists : Bool
  opened : Bool
  lines : List String

/-- `data.py`'s `process_all_rooms` restricted to one room: iterate the
videos in order; a missing annotation file or an unopenable video is
logged and skipped, while an uncaught exception from the extractor
propagates and stops the batch. -/
def process_all_rooms (env : Env) (fallDir noFallDir : String) (imageSize : Nat) :
    List VideoInput → Except PyError (List Event)
  | [] => .ok []
  | v :: rest =>
    if !v.annotFileExists then
      match process_all_rooms env fallDir noFallDir imageSize rest with
      | .error e => .error e
      | .ok evs => .ok (.log .missingAnnotFile :: evs)
    else
      match crop_frames_using_annotations env v.opened v.lines fallDir noFallDir imageSize with
      | .error e => .error e
      | .ok evs =>
        match process_all_rooms env fallDir noFallDir imageSize rest with
        | .error e => .error e
        | .ok evs' => .ok (evs ++ evs')

end Data

namespace Utils

/-- One iteration of the per-line loop of `utils.py` (lines 13-68): every
line, whatever its position, is treated as a comma-separated bounding-box
record; empty lines and all parse failures are logged and skipped. -/
def procLine (env : Env) (saveDir : String) (imageSize : Nat) (line : String) :
    List Event :=
  if pyStrip line = "" then [.log .emptyLine]
  else
    match parseBBoxLine line with
    | .malformed => [.log .malformed]
    | .parseError => [.log .parseError]
    | .invalidDims => [.log .invalidDims]
    | .ok b => processRecord env (fun _ => saveDir) imageSize b

/-- `utils.py`'s `crop_frames_using_annotations`: the single-directory
extractor.  No line position is special and nothing can abort the
per-file loop. -/
def crop_frames_using_annotations (env : Env) (opened : Bool) (lines : List String)
    (saveDir : String) (imageSize : Nat) : List Event :=
  if !opened then [.log .cannotOpenVideo]
  else (lines.map (procLine env saveDir imageSize)).flatten

end Utils

/-- Final image files on disk after an extractor run: fold the successful
`imwrite` calls over an initial file-system state, later writes
overwriting earlier ones at the same path. -/
def applyWrites (fs : String → Option Image) : List Event → (String → Option Image)
  | [] => fs
  | .write dir n img true :: rest =>
    applyWrites (fun p => if p = writePath dir n then some img else fs p) rest
  | _ :: rest => applyWrites fs rest

/-! ## Data model of the dataset splitter (`u1.py`) -/

/-- The three-way ratio cut of `split_data` (`u1.py` lines 65-79) applied
to one label's (already shuffled) file list: `int(train_ratio * total)`
and `int(val_ratio * total)` elements, then the remainder. -/
def splitList {α : Type} (tr vr : ℚ) (l : List α) : List α × List α × List α :=
  let t := pyTrunc (tr * (l.length : ℚ))
  let v := pyTrunc (vr * (l.length : ℚ))
  (pySlice l 0 t, pySlice l t (t + v), pySlice l (t + v) (l.length : Int))

/-- Observable effect of the splitter: a diagnostic or one
`shutil.copy(src, dst)` call. -/
inductive SplitEvent where
  | log : LogTag → SplitEvent
  | copy : String → String → SplitEvent
deriving Repr, DecidableEq

/-- The copy calls for one (split, label) group:
`shutil.copy(f, os.path.join(dest, split, label, os.path.basename(f)))`
for each selected file, in list order. -/
def copyGroup (dest split label : String) (files : List String) : List SplitEvent :=
  files.map (fun f => .copy f (pathJoin (pathJoin (pathJoin dest split) label) (basename f)))

/-- `u1.py`'s `split_data` on the two collected file lists: abort with a
diagnostic if either list is empty, otherwise shuffle each list, cut each
into train/val/test, and copy the six groups in program order.  The
in-place `random.shuffle` is modelled by the `shuffle` parameter. -/
def split_data (shuffle : List String → List String)
    (fallFiles noFallFiles : List String) (dest : String) (tr vr : ℚ) : List SplitEvent :=
  if noFallFiles.length = 0 then [.log .noFilesNoFall]
  else if fallFiles.length = 0 then [.log .noFilesFall]
  else
    let fall := shuffle fallFiles
    let noFall := shuffle noFallFiles
    let pf := splitList tr vr fall
    let pn := splitList tr vr noFall
    copyGroup dest "train" "fall" pf.1 ++
    copyGroup dest "val" "fall" pf.2.1 ++
    copyGroup dest "test" "fall" pf.2.2 ++
    copyGroup dest "train" "no_fall" pn.1 ++
    copyGroup dest "val" "no_fall" pn.2.1 ++
    copyGroup dest "test" "no_fall" pn.2.2

/-- File contents after the splitter runs: fold the `shutil.copy` calls
over an initial file-system state; each copy reads the source at the
moment it runs and overwrites the destination. -/
def applyCopies (fs : String → Option String) : List SplitEvent → (String → Option String)
  | [] => fs
  | .log _ :: rest => applyCopies fs rest
  | .copy src dst :: rest =>
    applyCopies (fun p => if p = dst then fs src else fs p) rest

/-- A concrete environment for instantiating the theorems: every frame
decodes to a 240 x 320 image and every `imwrite` succeeds. -/
def envAllOk : Env :=
  { readFrame := fun _ => some { height := 240, width := 320 }
    imwriteOk := fun _ => true }

/-! ## General lemmas about the extractor -/

/-- Every `imwrite` call made by `processRecord` targets the directory
chosen for the record's frame number, is keyed by that frame number, and
passes the image resized to `imageSize` by `imageSize`. -/
theorem write_mem_processRecord {env : Env} {cd : Int → String} {sz : Nat} {b : BBox}
    {d : String} {n : Int} {img : Image} {ok : Bool}
    (h : Event.write d n img ok ∈ processRecord env cd sz b) :
    d = cd b.frameNum ∧ n = b.frameNum ∧ img = { height := sz, width := sz } := by
  unfold processRecord at h
  cases hf : env.readFrame b.frameNum with
  | none => rw [hf] at h; simp at h
  | some frame =>
    rw [hf] at h
    simp only [] at h
    split at h
    · simp at h
    · rcases List.mem_cons.mp h with h1 | h1
      · obtain ⟨hd, hn, himg, -⟩ := Event.write.inj h1
        exact ⟨hd, hn, by rw [himg]; rfl⟩
      · exfalso
        revert h1
        split <;> simp

/-- C1: in the two-directory extractor, the destination directory of
every written image is a pure function of the fall interval and the
record's frame number: inside `[fallStart, fallEnd]` it is the fall
directory (and not the no-fall directory), outside it is the no-fall
directory (and not the fall directory); changing the bounding-box fields
of the record, the environment, or the image size while keeping the frame
number never changes the chosen directory. -/
theorem C1_two_directory_label_pure (env : Env) (fallDir noFallDir : String) (sz : Nat)
    (s e : Int) (b : BBox) (d : String) (n : Int) (img : Image) (ok : Bool)
    (hne : fallDir ≠ noFallDir)
    (hw : Event.write d n img ok ∈ processRecord env (chooseDirData fallDir noFallDir s e) sz b) :
    (s ≤ b.frameNum ∧ b.frameNum ≤ e → d = fallDir ∧ d ≠ noFallDir) ∧
    (¬(s ≤ b.frameNum ∧ b.frameNum ≤ e) → d = noFallDir ∧ d ≠ fallDir) ∧
    (∀ (env' : Env) (sz' : Nat) (b' : BBox) (d' : String) (n' : Int) (img' : Image) (ok' : Bool),
      b'.frameNum = b.frameNum →
      Event.write d' n' img' ok' ∈
        processRecord env' (chooseDirData fallDir noFallDir s e) sz' b' →
      d' = d) := by
  obtain ⟨hd, -, -⟩ := write_mem_processRecord hw
  refine ⟨?_, ?_, ?_⟩
  · intro hin
    rw [hd, chooseDirData, if_pos hin]
    exact ⟨rfl, hne⟩
  · intro hout
    rw [hd, chooseDirData, if_neg hout]
    exact ⟨rfl, fun hc => hne hc.symm⟩
  · intro env' sz' b' d' n' img' ok' hfr hw'
    obtain ⟨hd', -, -⟩ := write_mem_processRecord hw'
    rw [hd', hd, hfr]

/-- C1 witness: the record `15,0,100,100,50,60` with fall interval
`[10, 20]` produces a write, and the theorem applies to it. -/
theorem C1_witness :
    (("falld" : String) ≠ "nofalld") ∧
    (Event.write "falld" 15 { height := 224, width := 224 } true ∈
      processRecord envAllOk (chooseDirData "falld" "nofalld" 10 20) 224
        { frameNum := 15, xCenter := 100, yCenter := 100, width := 50, height := 60 }) ∧
    ((10 : Int) ≤ 15 ∧ (15 : Int) ≤ 20 → ("falld" : String) = "falld" ∧ ("falld" : String) ≠ "nofalld") := by
  refine ⟨by decide, by decide, ?_⟩
  exact (C1_two_directory_label_pure envAllOk "falld" "nofalld" 224 10 20
    { frameNum := 15, xCenter := 100, yCenter := 100, width := 50, height := 60 }
    "falld" 15 { height := 224, width := 224 } true (by decide) (by decide)).1

/-- C4: for a record with positive width and height and a successfully
decoded frame, the crop box the extractor computes equals the
specification's formula (max/min clamping with integer division
truncating toward zero), and a degenerate box (`x_start >= x_end` or
`y_start >= y_end`) produces only a diagnostic and no write. -/
theorem C4_crop_box_formula (env : Env) (cd : Int → String) (sz : Nat) (b : BBox)
    (frame : Image) (hw : 0 < b.width) (hh : 0 < b.height)
    (hf : env.readFrame b.frameNum = some frame) :
    cropBounds b frame = cropBoundsSpec b frame ∧
    ((cropBounds b frame).1 ≥ (cropBounds b frame).2.2.1 ∨
        (cropBounds b frame).2.1 ≥ (cropBounds b frame).2.2.2 →
      processRecord env cd sz b = [Event.log LogTag.invalidCrop]) := by
  constructor
  · have hwd : Int.fdiv b.width 2 = Int.tdiv b.width 2 :=
      Int.fdiv_eq_tdiv (le_of_lt hw) (by norm_num)
    have hhd : Int.fdiv b.height 2 = Int.tdiv b.height 2 :=
      Int.fdiv_eq_tdiv (le_of_lt hh) (by norm_num)
    rw [cropBounds, cropBoundsSpec, hwd, hhd]
  · intro hdeg
    unfold processRecord
    rw [hf]
    simp only []
    rw [if_pos hdeg]

/-- C4 witness: a concrete degenerate record (width 1, height 1 at the
frame corner) is skipped with a diagnostic. -/
theorem C4_witness :
    ((0 : Int) < 1 ∧ (0 : Int) < 1 ∧
      envAllOk.readFrame 3 = some { height := 240, width := 320 }) ∧
    (cropBounds { frameNum := 3, xCenter := 0, yCenter := 0, width := 1, height := 1 }
        { height := 240, width := 320 } =
      cropBoundsSpec { frameNum := 3, xCenter := 0, yCenter := 0, width := 1, height := 1 }
        { height := 240, width := 320 }) ∧
    processRecord envAllOk (fun _ => "sdir") 224
        { frameNum := 3, xCenter := 0, yCenter := 0, width := 1, height := 1 } =
      [Event.log LogTag.invalidCrop] := by
  refine ⟨by decide, ?_, ?_⟩
  · exact (C4_crop_box_formula envAllOk (fun _ => "sdir") 224
      { frameNum := 3, xCenter := 0, yCenter := 0, width := 1, height := 1 }
      { height := 240, width := 320 } (by decide) (by decide) rfl).1
  · exact (C4_crop_box_formula envAllOk (fun _ => "sdir") 224
      { frameNum := 3, xCenter := 0, yCenter := 0, width := 1, height := 1 }
      { height := 240, width := 320 } (by decide) (by decide) rfl).2 (by decide)

/-- A line with at least six fields whose parsed width or height is
non-positive is classified as a parse error (when another used field is
non-integer) or as an invalid-dimensions record; it is never a valid
record. -/
theorem parseBBoxLine_nonpos_dims {line : String} {w h : Int}
    (hlen : 6 ≤ (pySplit (pyStrip line) ',').length)
    (hw : pyInt? ((pySplit (pyStrip line) ',').getD 4 "") = some w)
    (hh : pyInt? ((pySplit (pyStrip line) ',').getD 5 "") = some h)
    (hwh : w ≤ 0 ∨ h ≤ 0) :
    parseBBoxLine line = .parseError ∨ parseBBoxLine line = .invalidDims := by
  unfold parseBBoxLine
  simp only []
  rw [if_neg (by omega), hw, hh]
  cases h0 : pyInt? ((pySplit (pyStrip line) ',').getD 0 "") with
  | none => exact Or.inl rfl
  | some f =>
    cases h2 : pyInt? ((pySplit (pyStrip line) ',').getD 2 "") with
    | none => exact Or.inl rfl
    | some xc =>
      cases h3 : pyInt? ((pySplit (pyStrip line) ',').getD 3 "") with
      | none => exact Or.inl rfl
      | some yc =>
        right
        simp only []
        rw [if_pos hwh]

/-- C5: an annotation line (at a bounding-box position) whose parsed
width or height field is non-positive produces no write in either
extractor variant: the two-directory variant returns normally with the
state unchanged and a single diagnostic, and the single-directory variant
emits a single diagnostic. -/
theorem C5_nonpositive_dims_skip (env : Env) (fallDir noFallDir saveDir : String)
    (sz : Nat) (st : Data.ExtState) (lineNum : Nat) (line : String) (w h : Int)
    (hn1 : lineNum ≠ 1) (hn2 : lineNum ≠ 2)
    (hlen : 6 ≤ (pySplit (pyStrip line) ',').length)
    (hw : pyInt? ((pySplit (pyStrip line) ',').getD 4 "") = some w)
    (hh : pyInt? ((pySplit (pyStrip line) ',').getD 5 "") = some h)
    (hwh : w ≤ 0 ∨ h ≤ 0) :
    (∃ t, Data.procLine env fallDir noFallDir sz st lineNum line = .ok (st, [Event.log t])) ∧
    (∃ t, Utils.procLine env saveDir sz line = [Event.log t]) := by
  have hne : pyStrip line ≠ "" := by
    intro he
    rw [he] at hlen
    exact absurd hlen (by decide)
  constructor
  · rw [Data.procLine, if_neg hn1, if_neg hn2]
    rcases parseBBoxLine_nonpos_dims hlen hw hh hwh with hp | hp <;> rw [hp]
    · exact ⟨LogTag.parseError, rfl⟩
    · exact ⟨LogTag.invalidDims, rfl⟩
  · rw [Utils.procLine, if_neg hne]
    rcases parseBBoxLine_nonpos_dims hlen hw hh hwh with hp | hp <;> rw [hp]
    · exact ⟨LogTag.parseError, rfl⟩
    · exact ⟨LogTag.invalidDims, rfl⟩

/-- C5 witness: the spec's scenario line `5,0,100,100,0,60` (width 0) is
skipped with a diagnostic by both variants. -/
theorem C5_witness :
    ((6 ≤ (pySplit (pyStrip "5,0,100,100,0,60") ',').length) ∧
      pyInt? ((pySplit (pyStrip "5,0,100,100,0,60") ',').getD 4 "") = some 0 ∧
      pyInt? ((pySplit (pyStrip "5,0,100,100,0,60") ',').getD 5 "") = some 60 ∧
      ((0 : Int) ≤ 0 ∨ (60 : Int) ≤ 0)) ∧
    (∃ t, Data.procLine envAllOk "falld" "nofalld" 224 (none, none) 3
        "5,0,100,100,0,60" = .ok ((none, none), [Event.log t])) ∧
    (∃ t, Utils.procLine envAllOk "sdir" 224 "5,0,100,100,0,60" = [Event.log t]) := by
  refine ⟨by decide, ?_⟩
  exact C5_nonpositive_dims_skip envAllOk "falld" "nofalld" "sdir" 224 (none, none) 3
    "5,0,100,100,0,60" 0 60 (by decide) (by decide) (by decide) (by decide) (by decide)
    (by decide)

/-- Shape of one successful loop iteration of the two-directory variant:
it produces no events (header lines), a single diagnostic, or the events
of `processRecord` on the parsed record. -/
theorem procLine_data_shape {env : Env} {fd nd : String} {sz : Nat}
    {st st' : Data.ExtState} {ln : Nat} {line : String} {evs : List Event}
    (h : Data.procLine env fd nd sz st ln line = Except.ok (st', evs)) :
    evs = [] ∨ (∃ t, evs = [Event.log t]) ∨
    (∃ b s e, st = (some s, some e) ∧
      parseBBoxLine line = .ok b ∧
      evs = processRecord env (chooseDirData fd nd s e) sz b) := by
  unfold Data.procLine at h
  by_cases h1 : ln = 1
  · rw [if_pos h1] at h
    cases hpi : pyInt? (pyStrip line) with
    | none => rw [hpi] at h; cases h
    | some v =>
      rw [hpi] at h
      injection h with h'
      injection h' with ha hb
      exact Or.inl hb.symm
  · rw [if_neg h1] at h
    by_cases h2 : ln = 2
    · rw [if_pos h2] at h
      cases hpi : pyInt? (pyStrip line) with
      | none => rw [hpi] at h; cases h
      | some v =>
        rw [hpi] at h
        injection h with h'
        injection h' with ha hb
        exact Or.inl hb.symm
    · rw [if_neg h2] at h
      cases hp : parseBBoxLine line with
      | malformed =>
        rw [hp] at h
        injection h with h'
        injection h' with ha hb
        exact Or.inr (Or.inl ⟨_, hb.symm⟩)
      | parseError =>
        rw [hp] at h
        injection h with h'
        injection h' with ha hb
        exact Or.inr (Or.inl ⟨_, hb.symm⟩)
      | invalidDims =>
        rw [hp] at h
        injection h with h'
        injection h' with ha hb
        exact Or.inr (Or.inl ⟨_, hb.symm⟩)
      | ok b =>
        rw [hp] at h
        obtain ⟨o1, o2⟩ := st
        cases o1 with
        | none => cases o2 <;> cases h
        | some s =>
          cases o2 with
          | none => cases h
          | some e =>
            injection h with h'
            injection h' with ha hb
            exact Or.inr (Or.inr ⟨b, s, e, rfl, rfl, hb.symm⟩)

/-- Every write event of a successful run of the two-directory per-line
loop passes an image of the configured size. -/
theorem write_img_runLines_data {env : Env} {fd nd : String} {sz : Nat} :
    ∀ (lines : List String) (st : Data.ExtState) (ln : Nat) (evs : List Event),
      Data.runLines env fd nd sz st ln lines = Except.ok evs →
      ∀ (d : String) (m : Int) (img : Image) (ok : Bool),
        Event.write d m img ok ∈ evs → img = { height := sz, width := sz }
  | [], st, ln, evs, h => by
    injection h with h'
    intro d m img ok hw
    rw [← h'] at hw
    cases hw
  | line :: rest, st, ln, evs, h => by
    intro d m img ok hw
    rw [Data.runLines] at h
    cases hp : Data.procLine env fd nd sz st ln line with
    | error e => rw [hp] at h; cases h
    | ok out =>
      obtain ⟨st', evs1⟩ := out
      rw [hp] at h
      dsimp only at h
      cases hr : Data.runLines env fd nd sz st' (ln + 1) rest with
      | error e => rw [hr] at h; cases h
      | ok evs2 =>
        rw [hr] at h
        injection h with h'
        rw [← h'] at hw
        rcases List.mem_append.mp hw with hw1 | hw2
        · rcases procLine_data_shape hp with rfl | ⟨t, rfl⟩ | ⟨b, s, e, -, -, rfl⟩
          · cases hw1
          · simp at hw1
          · exact (write_mem_processRecord hw1).2.2
        · exact write_img_runLines_data rest st' (ln + 1) evs2 hr d m img ok hw2

/-- Every write event of the single-directory extractor's per-line body
passes an image of the configured size. -/
theorem write_img_procLine_utils {env : Env} {sdir : String} {sz : Nat} {line : String}
    {d : String} {m : Int} {img : Image} {ok : Bool}
    (hw : Event.write d m img ok ∈ Utils.procLine env sdir sz line) :
    img = { height := sz, width := sz } := by
  unfold Utils.procLine at hw
  split at hw
  · simp at hw
  · cases hp : parseBBoxLine line with
    | malformed => rw [hp] at hw; simp at hw
    | parseError => rw [hp] at hw; simp at hw
    | invalidDims => rw [hp] at hw; simp at hw
    | ok b =>
      rw [hp] at hw
      exact (write_mem_processRecord hw).2.2

/-- C8: every image passed to the image-write operation, in both
extractor variants and for every annotation file, is the result of
resizing the crop to `imageSize` by `imageSize`: its dimensions are
exactly `imageSize` by `imageSize`. -/
theorem C8_written_image_size (env : Env) (fd nd sdir : String) (sz : Nat)
    (lines : List String) (opened : Bool) (evs : List Event) :
    (Data.crop_frames_using_annotations env opened lines fd nd sz = Except.ok evs →
      ∀ (d : String) (m : Int) (img : Image) (ok : Bool),
        Event.write d m img ok ∈ evs → img = { height := sz, width := sz }) ∧
    (∀ (d : String) (m : Int) (img : Image) (ok : Bool),
      Event.write d m img ok ∈ Utils.crop_frames_using_annotations env opened lines sdir sz →
      img = { height := sz, width := sz }) := by
  constructor
  · intro h d m img ok hw
    unfold Data.crop_frames_using_annotations at h
    split at h
    · injection h with h'
      rw [← h'] at hw
      simp at hw
    · exact write_img_runLines_data lines (none, none) 1 evs h d m img ok hw
  · intro d m img ok hw
    unfold Utils.crop_frames_using_annotations at hw
    split at hw
    · simp at hw
    · rw [List.mem_flatten] at hw
      obtain ⟨l, hl, hw⟩ := hw
      rw [List.mem_map] at hl
      obtain ⟨line, -, rfl⟩ := hl
      exact write_img_procLine_utils hw

/-- C8 witness: the spec's scenario run writes a 224 x 224 image. -/
theorem C8_witness :
    (Data.crop_frames_using_annotations envAllOk true
        [ "10", "20", "15,0,100,100,50,60" ] "falld" "nofalld" 224 =
      Except.ok [ Event.write "falld" 15 { height := 224, width := 224 } true ]) ∧
    (Event.write "falld" 15 { height := 224, width := 224 } true ∈
      [ Event.write "falld" 15 { height := 224, width := 224 } true ]) ∧
    ({ height := 224, width := 224 } : Image) = { height := 224, width := 224 } := by
  refine ⟨by rfl, by decide, ?_⟩
  exact (C8_written_image_size envAllOk "falld" "nofalld" "sdir" 224
    [ "10", "20", "15,0,100,100,50,60" ] true
    [ Event.write "falld" 15 { height := 224, width := 224 } true ]).1
    (by rfl) "falld" 15 { height := 224, width := 224 } true (by decide)

/-- A bounding-box line (position 3 or later) never raises once the
interval state is set: whatever the line's content, the iteration returns
normally and leaves the state unchanged. -/
theorem procLine_data_ok_ge3 (env : Env) (fd nd : String) (sz : Nat) (s e : Int)
    (ln : Nat) (line : String) (hn1 : ln ≠ 1) (hn2 : ln ≠ 2) :
    ∃ evs, Data.procLine env fd nd sz (some s, some e) ln line =
      Except.ok ((some s, some e), evs) := by
  rw [Data.procLine, if_neg hn1, if_neg hn2]
  cases parseBBoxLine line <;> exact ⟨_, rfl⟩

/-- Unfolding step of the two-directory per-line loop. -/
theorem runLines_data_cons {env : Env} {fd nd : String} {sz : Nat}
    {st st' : Data.ExtState} {ln : Nat} {line : String} {rest : List String}
    {evs1 evs2 : List Event}
    (h1 : Data.procLine env fd nd sz st ln line = Except.ok (st', evs1))
    (h2 : Data.runLines env fd nd sz st' (ln + 1) rest = Except.ok evs2) :
    Data.runLines env fd nd sz st ln (line :: rest) = Except.ok (evs1 ++ evs2) := by
  simp only [Data.runLines]
  rw [h1]
  dsimp only
  rw [h2]

/-- From line 3 on, with both interval bounds set, the two-directory
per-line loop always returns normally. -/
theorem runLines_data_ok (env : Env) (fd nd : String) (sz : Nat) (s e : Int) :
    ∀ (lines : List String) (ln : Nat), 3 ≤ ln →
      ∃ evs, Data.runLines env fd nd sz (some s, some e) ln lines = Except.ok evs
  | [], ln, _ => ⟨[], rfl⟩
  | line :: rest, ln, hln => by
    obtain ⟨evs1, h1⟩ := procLine_data_ok_ge3 env fd nd sz s e ln line
      (by omega) (by omega)
    obtain ⟨evs2, h2⟩ := runLines_data_ok env fd nd sz s e rest (ln + 1) (by omega)
    exact ⟨evs1 ++ evs2, runLines_data_cons h1 h2⟩

/-- Processing line 1 sets the fall-start bound and emits nothing. -/
theorem runLines_data_header1 {env : Env} {fd nd : String} {sz : Nat}
    {st : Data.ExtState} {l1 : String} {a : Int} (rest : List String)
    (h : pyInt? (pyStrip l1) = some a) :
    Data.runLines env fd nd sz st 1 (l1 :: rest) =
      Data.runLines env fd nd sz (some a, st.2) 2 rest := by
  have h1 : Data.procLine env fd nd sz st 1 l1 = Except.ok ((some a, st.2), []) := by
    rw [Data.procLine, if_pos rfl, h]
  simp only [Data.runLines]
  rw [h1]
  dsimp only
  cases hr : Data.runLines env fd nd sz (some a, st.2) 2 rest with
  | error e => rfl
  | ok evs => dsimp only; rw [List.nil_append]

/-- Processing line 2 sets the fall-end bound and emits nothing. -/
theorem runLines_data_header2 {env : Env} {fd nd : String} {sz : Nat}
    {st : Data.ExtState} {l2 : String} {b : Int} (rest : List String)
    (h : pyInt? (pyStrip l2) = some b) :
    Data.runLines env fd nd sz st 2 (l2 :: rest) =
      Data.runLines env fd nd sz (st.1, some b) 3 rest := by
  have h1 : Data.procLine env fd nd sz st 2 l2 = Except.ok ((st.1, some b), []) := by
    rw [Data.procLine, if_neg (by decide), if_pos rfl, h]
  simp only [Data.runLines]
  rw [h1]
  dsimp only
  cases hr : Data.runLines env fd nd sz (st.1, some b) 3 rest with
  | error e => rfl
  | ok evs => dsimp only; rw [List.nil_append]

/-- C3 counterexample: an annotation file whose first line is not an
integer raises an uncaught `ValueError` that aborts not only that
video's extractor run but the whole batch: the second, well-formed video
in the list is never processed and the driver returns the error. -/
theorem C3_counterexample :
    Data.process_all_rooms envAllOk "falld" "nofalld" 224
      [ { annotFileExists := true, opened := true, lines := [ "abc" ] },
        { annotFileExists := true, opened := true, lines := [ "1", "2" ] } ] =
      Except.error PyError.valueError := by
  rfl

/-- C3 (amended): every failure on a bounding-box line is logged and the
loop continues: the iteration returns normally with the interval state
unchanged, and a line with too few fields, a non-integer field or
non-positive dimensions yields exactly the matching diagnostic, an
unreadable frame yields the read diagnostic, a degenerate crop yields
the crop diagnostic, and a failed image write is followed by the save
diagnostic.  Provided lines 1 and 2 of the annotation file parse as
integers, the two-directory extractor run always returns normally,
whatever the remaining lines and the I/O outcomes; and an unopenable
video aborts only that video: the batch driver logs it and continues
with the remaining videos. (A non-integer header line instead raises an
uncaught ValueError, which is the counterexample to the original
claim.) -/
theorem C3_amended_error_policy (env : Env) (fd nd : String) (sz : Nat)
    (lines : List String) (rest : List Data.VideoInput)
    (hhead : ∀ l ∈ lines.take 2, pyInt? (pyStrip l) ≠ none) :
    (∀ (s e : Int) (ln : Nat) (line : String), ln ≠ 1 → ln ≠ 2 →
      ∃ evs, Data.procLine env fd nd sz (some s, some e) ln line =
          Except.ok ((some s, some e), evs) ∧
        (parseBBoxLine line = ParseResult.malformed →
          evs = [ Event.log LogTag.malformed ]) ∧
        (parseBBoxLine line = ParseResult.parseError →
          evs = [ Event.log LogTag.parseError ]) ∧
        (parseBBoxLine line = ParseResult.invalidDims →
          evs = [ Event.log LogTag.invalidDims ]) ∧
        (∀ b, parseBBoxLine line = ParseResult.ok b →
          (env.readFrame b.frameNum = none →
            evs = [ Event.log LogTag.cannotReadFrame ]) ∧
          (∀ frame, env.readFrame b.frameNum = some frame →
            ((cropBounds b frame).1 ≥ (cropBounds b frame).2.2.1 ∨
                (cropBounds b frame).2.1 ≥ (cropBounds b frame).2.2.2 →
              evs = [ Event.log LogTag.invalidCrop ]) ∧
            (¬((cropBounds b frame).1 ≥ (cropBounds b frame).2.2.1 ∨
                (cropBounds b frame).2.1 ≥ (cropBounds b frame).2.2.2) →
              env.imwriteOk
                  (writePath (chooseDirData fd nd s e b.frameNum) b.frameNum) = false →
              Event.log LogTag.saveError ∈ evs)))) ∧
    (∃ evs, Data.crop_frames_using_annotations env true lines fd nd sz = Except.ok evs) ∧
    (∀ evs, Data.process_all_rooms env fd nd sz rest = Except.ok evs →
      Data.process_all_rooms env fd nd sz
        ({ annotFileExists := true, opened := false, lines := lines } :: rest) =
        Except.ok (Event.log LogTag.cannotOpenVideo :: evs)) := by
  refine ⟨?_, ?_, ?_⟩
  · intro s e ln line hn1 hn2
    rw [Data.procLine, if_neg hn1, if_neg hn2]
    cases hp : parseBBoxLine line with
    | malformed =>
      refine ⟨[ Event.log LogTag.malformed ], rfl, fun _ => rfl, ?_, ?_, ?_⟩
      · intro h; cases h
      · intro h; cases h
      · intro b hb; cases hb
    | parseError =>
      refine ⟨[ Event.log LogTag.parseError ], rfl, ?_, fun _ => rfl, ?_, ?_⟩
      · intro h; cases h
      · intro h; cases h
      · intro b hb; cases hb
    | invalidDims =>
      refine ⟨[ Event.log LogTag.invalidDims ], rfl, ?_, ?_, fun _ => rfl, ?_⟩
      · intro h; cases h
      · intro h; cases h
      · intro b hb; cases hb
    | ok b =>
      refine ⟨processRecord env (chooseDirData fd nd s e) sz b, rfl, ?_, ?_, ?_, ?_⟩
      · intro h; cases h
      · intro h; cases h
      · intro h; cases h
      · intro b' hb
        injection hb with hb'
        subst hb'
        refine ⟨?_, ?_⟩
        · intro hnone
          unfold processRecord
          rw [hnone]
        · intro frame hf
          refine ⟨?_, ?_⟩
          · intro hdeg
            unfold processRecord
            rw [hf]
            simp only []
            rw [if_pos hdeg]
          · intro hdeg hwf
            unfold processRecord
            rw [hf]
            simp only []
            rw [if_neg hdeg, hwf]
            simp
  · show ∃ evs, Data.runLines env fd nd sz (none, none) 1 lines = Except.ok evs
    match lines, hhead with
    | [], _ => exact ⟨[], rfl⟩
    | [l1], hhead =>
      have h1 := hhead l1 (by simp)
      cases hv : pyInt? (pyStrip l1) with
      | none => exact absurd hv h1
      | some a =>
        refine ⟨[], ?_⟩
        rw [runLines_data_header1 [] hv]
        rfl
    | l1 :: l2 :: rest', hhead =>
      have h1 := hhead l1 (by simp)
      have h2 := hhead l2 (by simp)
      cases hv1 : pyInt? (pyStrip l1) with
      | none => exact absurd hv1 h1
      | some a =>
        cases hv2 : pyInt? (pyStrip l2) with
        | none => exact absurd hv2 h2
        | some b =>
          obtain ⟨evs, hr⟩ := runLines_data_ok env fd nd sz a b rest' 3 (by omega)
          refine ⟨evs, ?_⟩
          rw [runLines_data_header1 (l2 :: rest') hv1,
            runLines_data_header2 rest' hv2]
          exact hr
  · intro evs hrest
    show (match Data.crop_frames_using_annotations env false lines fd nd sz with
      | Except.error e => Except.error e
      | Except.ok evs1 =>
        match Data.process_all_rooms env fd nd sz rest with
        | Except.error e => Except.error e
        | Except.ok evs' => Except.ok (evs1 ++ evs')) =
      Except.ok (Event.log LogTag.cannotOpenVideo :: evs)
    rw [hrest]
    rfl

/-- C3 witness: a malformed bounding-box line is logged and skipped with
the state unchanged, a file with integer headers and two bad
bounding-box lines runs to completion, and an unopenable video is
skipped while the next video is still processed. -/
theorem C3_witness :
    (∀ l ∈ ([ "1", "10", "zz", "5,0,100,100,0,60" ] : List String).take 2,
      pyInt? (pyStrip l) ≠ none) ∧
    Data.procLine envAllOk "falld" "nofalld" 224 (some 1, some 10) 3 "zz" =
      Except.ok ((some 1, some 10), [ Event.log LogTag.malformed ]) ∧
    (∃ evs, Data.crop_frames_using_annotations envAllOk true
      [ "1", "10", "zz", "5,0,100,100,0,60" ] "falld" "nofalld" 224 = Except.ok evs) ∧
    Data.process_all_rooms envAllOk "falld" "nofalld" 224
      [ { annotFileExists := true, opened := false,
          lines := [ "1", "10", "zz", "5,0,100,100,0,60" ] },
        { annotFileExists := true, opened := true, lines := [ "1", "2" ] } ] =
      Except.ok [ Event.log LogTag.cannotOpenVideo ] := by
  refine ⟨by decide, ?_, ?_, ?_⟩
  · obtain ⟨evs, heq, hmal, -, -, -⟩ := (C3_amended_error_policy envAllOk "falld" "nofalld" 224
      [ "1", "10", "zz", "5,0,100,100,0,60" ]
      [ { annotFileExists := true, opened := true, lines := [ "1", "2" ] } ]
      (by decide)).1 1 10 3 "zz" (by decide) (by decide)
    rw [hmal (by decide)] at heq
    exact heq
  · exact (C3_amended_error_policy envAllOk "falld" "nofalld" 224
      [ "1", "10", "zz", "5,0,100,100,0,60" ]
      [ { annotFileExists := true, opened := true, lines := [ "1", "2" ] } ]
      (by decide)).2.1
  · exact (C3_amended_error_policy envAllOk "falld" "nofalld" 224
      [ "1", "10", "zz", "5,0,100,100,0,60" ]
      [ { annotFileExists := true, opened := true, lines := [ "1", "2" ] } ]
      (by decide)).2.2 [] (by rfl)

/-- C7 counterexample: in the single-directory variant, line 1 of the
file is not parsed as a single-integer fall bound (it is not an integer
at all) and is nevertheless processed as a comma-separated bounding-box
record, producing a written image. -/
theorem C7_counterexample :
    pyInt? (pyStrip "5,0,100,100,50,60") = none ∧
    Utils.crop_frames_using_annotations envAllOk true [ "5,0,100,100,50,60" ] "sdir" 224 =
      [ Event.write "sdir" 5 { height := 224, width := 224 } true ] :=
  ⟨by decide, by rfl⟩

/-- C7 (amended): the two-directory extractor parses lines 1 and 2 as the
fall-interval bounds -- they contribute no events and the remaining lines
are processed with the parsed bounds as state; the single-directory
extractor has no fall interval and treats every line, including lines 1
and 2, by the same bounding-box body. -/
theorem C7_amended_header_lines (env : Env) (fd nd sdir : String) (sz : Nat)
    (l1 l2 : String) (rest lines : List String) (a b : Int)
    (h1 : pyInt? (pyStrip l1) = some a) (h2 : pyInt? (pyStrip l2) = some b) :
    Data.crop_frames_using_annotations env true (l1 :: l2 :: rest) fd nd sz =
      Data.runLines env fd nd sz (some a, some b) 3 rest ∧
    Utils.crop_frames_using_annotations env true lines sdir sz =
      (lines.map (Utils.procLine env sdir sz)).flatten := by
  constructor
  · show Data.runLines env fd nd sz (none, none) 1 (l1 :: l2 :: rest) = _
    rw [runLines_data_header1 (l2 :: rest) h1, runLines_data_header2 rest h2]
  · rfl

/-- C7 witness: headers `1` and `10` are consumed as interval bounds. -/
theorem C7_witness :
    (pyInt? (pyStrip "1") = some 1 ∧ pyInt? (pyStrip "10") = some 10) ∧
    (Data.crop_frames_using_annotations envAllOk true
        [ "1", "10", "15,0,100,100,50,60" ] "falld" "nofalld" 224 =
      Data.runLines envAllOk "falld" "nofalld" 224 (some 1, some 10) 3
        [ "15,0,100,100,50,60" ] ∧
    Utils.crop_frames_using_annotations envAllOk true [ "5,0,100,100,50,60" ] "sdir" 224 =
      (([ "5,0,100,100,50,60" ] : List String).map
        (Utils.procLine envAllOk "sdir" 224)).flatten) := by
  refine ⟨⟨by decide, by decide⟩, ?_⟩
  exact C7_amended_header_lines envAllOk "falld" "nofalld" "sdir" 224 "1" "10"
    [ "15,0,100,100,50,60" ] [ "5,0,100,100,50,60" ] 1 10 (by decide) (by decide)

/-- Applying the recorded writes to an initial state decomposes over list
concatenation. -/
theorem applyWrites_append (fs : String → Option Image) (xs ys : List Event) (p : String) :
    applyWrites fs (xs ++ ys) p = applyWrites (applyWrites fs xs) ys p := by
  induction xs generalizing fs with
  | nil => rfl
  | cons ev rest ih =>
    cases ev with
    | log t => exact ih fs
    | write d n img ok =>
      cases ok with
      | true => exact ih _
      | false => exact ih fs

/-- A path that no successful write targets keeps its initial content. -/
theorem applyWrites_not_written (fs : String → Option Image) (evs : List Event) (p : String)
    (h : ∀ d n img, Event.write d n img true ∈ evs → writePath d n ≠ p) :
    applyWrites fs evs p = fs p := by
  induction evs generalizing fs with
  | nil => rfl
  | cons ev rest ih =>
    cases ev with
    | log t => exact ih fs (fun d n img hm => h d n img (List.mem_cons_of_mem _ hm))
    | write d n img ok =>
      cases ok with
      | true =>
        rw [show applyWrites fs (Event.write d n img true :: rest) p =
          applyWrites (fun q => if q = writePath d n then some img else fs q) rest p from rfl]
        rw [ih _ (fun d' n' img' hm => h d' n' img' (List.mem_cons_of_mem _ hm))]
        exact if_neg (fun hc => h d n img (List.mem_cons_self _ _) (hc.symm))
      | false => exact ih fs (fun d' n' img' hm => h d' n' img' (List.mem_cons_of_mem _ hm))

/-- C10: within one extractor run, the output path is a pure function of
the destination directory and the frame number, so the image on disk at
a path after the run is the one passed by the last successful write to
that (directory, frame number) pair: any earlier write to the same pair
is overwritten. -/
theorem C10_last_write_wins (env : Env) (fd nd : String) (sz : Nat)
    (lines : List String) (opened : Bool) (fs : String → Option Image)
    (pre post : List Event) (d : String) (n : Int) (img : Image)
    (h : Data.crop_frames_using_annotations env opened lines fd nd sz =
      Except.ok (pre ++ Event.write d n img true :: post))
    (hlast : ∀ d' n' img', Event.write d' n' img' true ∈ post →
      writePath d' n' ≠ writePath d n) :
    applyWrites fs (pre ++ Event.write d n img true :: post) (writePath d n) = some img ∧
    writePath d n = pathJoin d (toString n ++ ".jpg") := by
  constructor
  · rw [applyWrites_append]
    show applyWrites
      (fun q => if q = writePath d n then some img else applyWrites fs pre q)
      post (writePath d n) = some img
    rw [applyWrites_not_written _ post _ hlast]
    exact if_pos rfl
  · rfl

/-- C10 witness: two records for frame 5, both mapped to the fall
directory; the final file at `falld/5.jpg` is the last record's image. -/
theorem C10_witness :
    (Data.crop_frames_using_annotations envAllOk true
        [ "1", "10", "5,0,100,100,50,60", "5,0,50,50,20,20" ] "falld" "nofalld" 224 =
      Except.ok ([ Event.write "falld" 5 { height := 224, width := 224 } true ] ++
        Event.write "falld" 5 { height := 224, width := 224 } true :: [])) ∧
    applyWrites (fun _ => none)
        ([ Event.write "falld" 5 { height := 224, width := 224 } true ] ++
          Event.write "falld" 5 { height := 224, width := 224 } true :: [])
        (writePath "falld" 5) =
      some { height := 224, width := 224 } := by
  refine ⟨by rfl, ?_⟩
  exact (C10_last_write_wins envAllOk "falld" "nofalld" 224
    [ "1", "10", "5,0,100,100,50,60", "5,0,50,50,20,20" ] true (fun _ => none)
    [ Event.write "falld" 5 { height := 224, width := 224 } true ] []
    "falld" 5 { height := 224, width := 224 } (by rfl)
    (fun d' n' img' hm => absurd hm (List.not_mem_nil _))).1

/-- C6: if either collected list (fall or no_fall) is empty, the split
aborts entirely with a diagnostic: zero copy calls are made, even when
the other list is non-empty. -/
theorem C6_empty_list_aborts (shuffle : List String → List String)
    (fall noFall : List String) (dest : String) (tr vr : ℚ)
    (h : fall = [] ∨ noFall = []) :
    (∀ s d, SplitEvent.copy s d ∉ split_data shuffle fall noFall dest tr vr) ∧
    (∃ t, SplitEvent.log t ∈ split_data shuffle fall noFall dest tr vr) := by
  rcases h with rfl | rfl
  · by_cases hn : noFall.length = 0
    · rw [split_data, if_pos hn]
      exact ⟨fun s d hm => by simp at hm, ⟨_, List.mem_singleton_self _⟩⟩
    · rw [split_data, if_neg hn,
        if_pos (show ([] : List String).length = 0 from rfl)]
      exact ⟨fun s d hm => by simp at hm, ⟨_, List.mem_singleton_self _⟩⟩
  · rw [split_data, if_pos (show ([] : List String).length = 0 from rfl)]
    exact ⟨fun s d hm => by simp at hm, ⟨_, List.mem_singleton_self _⟩⟩

/-- C6 witness: a non-empty fall list with an empty no_fall list yields
no copies and a diagnostic. -/
theorem C6_witness :
    (([ "a.jpg" ] : List String) = [] ∨ ([] : List String) = []) ∧
    (∀ s d, SplitEvent.copy s d ∉ split_data id [ "a.jpg" ] [] "dest" (7/10) (3/20)) ∧
    (∃ t, SplitEvent.log t ∈ split_data id [ "a.jpg" ] [] "dest" (7/10) (3/20)) := by
  refine ⟨Or.inr rfl, ?_⟩
  exact C6_empty_list_aborts id [ "a.jpg" ] [] "dest" (7/10) (3/20) (Or.inr rfl)

/-- Truncation toward zero agrees with the floor on non-negative
numbers (the splitter's counts are non-negative for valid ratios). -/
theorem pyTrunc_eq_floor {q : ℚ} (h : 0 ≤ q) : pyTrunc q = ⌊q⌋ :=
  if_neg (not_lt.mpr h)

/-- A slice endpoint always resolves within the list. -/
theorem pySliceResolve_le (n : Nat) (i : Int) : pySliceResolve n i ≤ n := by
  unfold pySliceResolve
  split
  · omega
  · exact Nat.min_le_right _ _

/-- A non-negative slice endpoint resolves to itself clamped at the
length. -/
theorem pySliceResolve_of_nonneg {i : Int} (n : Nat) (h : 0 ≤ i) :
    pySliceResolve n i = min i.toNat n :=
  if_neg (not_lt.mpr h)

/-- Length of a Python slice in terms of its resolved endpoints. -/
theorem length_pySlice {α : Type} (l : List α) (a b : Int) :
    (pySlice l a b).length =
      pySliceResolve l.length b - pySliceResolve l.length a := by
  unfold pySlice
  rw [List.length_drop, List.length_take]
  have := pySliceResolve_le l.length b
  omega

/-- Exact sizes of the three-way ratio cut, for ratios that are
non-negative and sum to at most one: `floor(tr * n)` train items,
`floor(vr * n)` val items, and the remainder for test. -/
theorem splitList_lengths {α : Type} (tr vr : ℚ) (l : List α)
    (htr : 0 ≤ tr) (hvr : 0 ≤ vr) (hsum : tr + vr ≤ 1) :
    (splitList tr vr l).1.length = (⌊tr * (l.length : ℚ)⌋).toNat ∧
    (splitList tr vr l).2.1.length = (⌊vr * (l.length : ℚ)⌋).toNat ∧
    (splitList tr vr l).1.length + (splitList tr vr l).2.1.length +
      (splitList tr vr l).2.2.length = l.length := by
  have hqn : (0 : ℚ) ≤ (l.length : ℚ) := Nat.cast_nonneg l.length
  have htn : 0 ≤ tr * (l.length : ℚ) := mul_nonneg htr hqn
  have hvn : 0 ≤ vr * (l.length : ℚ) := mul_nonneg hvr hqn
  have ht0 : 0 ≤ ⌊tr * (l.length : ℚ)⌋ := Int.floor_nonneg.mpr htn
  have hv0 : 0 ≤ ⌊vr * (l.length : ℚ)⌋ := Int.floor_nonneg.mpr hvn
  have htv : ⌊tr * (l.length : ℚ)⌋ + ⌊vr * (l.length : ℚ)⌋ ≤ (l.length : Int) := by
    have h1 := Int.le_floor_add (tr * (l.length : ℚ)) (vr * (l.length : ℚ))
    have h2 : tr * (l.length : ℚ) + vr * (l.length : ℚ) ≤ ((l.length : ℚ)) := by
      have h3 : (tr + vr) * (l.length : ℚ) ≤ 1 * (l.length : ℚ) :=
        mul_le_mul_of_nonneg_right hsum hqn
      rw [add_mul, one_mul] at h3
      exact h3
    have h4 := Int.floor_mono h2
    rw [Int.floor_natCast] at h4
    omega
  have r0 : pySliceResolve l.length 0 = 0 := by
    rw [pySliceResolve_of_nonneg _ (by omega : (0 : Int) ≤ 0)]
    simp
  have rt : pySliceResolve l.length ⌊tr * (l.length : ℚ)⌋ = (⌊tr * (l.length : ℚ)⌋).toNat := by
    rw [pySliceResolve_of_nonneg _ ht0]
    exact Nat.min_eq_left (by omega)
  have rtv : pySliceResolve l.length (⌊tr * (l.length : ℚ)⌋ + ⌊vr * (l.length : ℚ)⌋) =
      (⌊tr * (l.length : ℚ)⌋ + ⌊vr * (l.length : ℚ)⌋).toNat := by
    rw [pySliceResolve_of_nonneg _ (by omega : 0 ≤ ⌊tr * (l.length : ℚ)⌋ + ⌊vr * (l.length : ℚ)⌋)]
    exact Nat.min_eq_left (by omega)
  have rn : pySliceResolve l.length ((l.length : Nat) : Int) = l.length := by
    rw [pySliceResolve_of_nonneg _ (by omega : 0 ≤ ((l.length : Nat) : Int))]
    simp
  simp only [splitList, pyTrunc_eq_floor htn, pyTrunc_eq_floor hvn]
  rw [length_pySlice, length_pySlice, length_pySlice, r0, rt, rtv, rn]
  omega

/-- C2 counterexample: with ratios `0.7` and `0.7` on a ten-element
list, the val slice has 3 elements while `floor(val_ratio * total)` is
7: the claim's exact-size property fails for ratios whose sum exceeds
one. -/
theorem C2_counterexample :
    (splitList (7/10 : ℚ) (7/10 : ℚ)
        ([ "f0", "f1", "f2", "f3", "f4", "f5", "f6", "f7", "f8", "f9" ] : List String)).2.1.length = 3 ∧
    (⌊(7/10 : ℚ) *
        ((([ "f0", "f1", "f2", "f3", "f4", "f5", "f6", "f7", "f8", "f9" ] : List String).length : ℕ) : ℚ)⌋).toNat = 7 ∧
    (3 : ℕ) ≠ 7 := by
  refine ⟨?_, ?_, by decide⟩
  · norm_num [splitList, pyTrunc]
    decide
  · show (⌊(7/10 : ℚ) * ((10 : ℕ) : ℚ)⌋).toNat = 7
    norm_num
    decide

/-- C2 (amended): for non-negative ratios summing to at most one, the
splitter's cut is exact and exhaustive on each label's list separately:
`floor(train_ratio * total)` train items, `floor(val_ratio * total)` val
items, and the remainder as test, the three summing to the total. -/
theorem C2_amended_split_sizes (tr vr : ℚ) (fall noFall : List String)
    (hf : fall ≠ []) (hn : noFall ≠ [])
    (htr : 0 ≤ tr) (hvr : 0 ≤ vr) (hsum : tr + vr ≤ 1) :
    ((splitList tr vr fall).1.length = (⌊tr * (fall.length : ℚ)⌋).toNat ∧
     (splitList tr vr fall).2.1.length = (⌊vr * (fall.length : ℚ)⌋).toNat ∧
     (splitList tr vr fall).1.length + (splitList tr vr fall).2.1.length +
       (splitList tr vr fall).2.2.length = fall.length) ∧
    ((splitList tr vr noFall).1.length = (⌊tr * (noFall.length : ℚ)⌋).toNat ∧
     (splitList tr vr noFall).2.1.length = (⌊vr * (noFall.length : ℚ)⌋).toNat ∧
     (splitList tr vr noFall).1.length + (splitList tr vr noFall).2.1.length +
       (splitList tr vr noFall).2.2.length = noFall.length) :=
  ⟨splitList_lengths tr vr fall htr hvr hsum,
   splitList_lengths tr vr noFall htr hvr hsum⟩

/-- C2 witness: the default-style ratios on concrete lists. -/
theorem C2_witness :
    (([ "a", "b", "c" ] : List String) ≠ [] ∧ ([ "d" ] : List String) ≠ [] ∧
      (0 : ℚ) ≤ 7/10 ∧ (0 : ℚ) ≤ 3/20 ∧ (7/10 : ℚ) + 3/20 ≤ 1) ∧
    (((splitList (7/10 : ℚ) (3/20 : ℚ) ([ "a", "b", "c" ] : List String)).1.length =
        (⌊(7/10 : ℚ) * ((([ "a", "b", "c" ] : List String).length : ℕ) : ℚ)⌋).toNat ∧
      (splitList (7/10 : ℚ) (3/20 : ℚ) ([ "a", "b", "c" ] : List String)).2.1.length =
        (⌊(3/20 : ℚ) * ((([ "a", "b", "c" ] : List String).length : ℕ) : ℚ)⌋).toNat ∧
      (splitList (7/10 : ℚ) (3/20 : ℚ) ([ "a", "b", "c" ] : List String)).1.length +
          (splitList (7/10 : ℚ) (3/20 : ℚ) ([ "a", "b", "c" ] : List String)).2.1.length +
          (splitList (7/10 : ℚ) (3/20 : ℚ) ([ "a", "b", "c" ] : List String)).2.2.length =
        ([ "a", "b", "c" ] : List String).length) ∧
     ((splitList (7/10 : ℚ) (3/20 : ℚ) ([ "d" ] : List String)).1.length =
        (⌊(7/10 : ℚ) * ((([ "d" ] : List String).length : ℕ) : ℚ)⌋).toNat ∧
      (splitList (7/10 : ℚ) (3/20 : ℚ) ([ "d" ] : List String)).2.1.length =
        (⌊(3/20 : ℚ) * ((([ "d" ] : List String).length : ℕ) : ℚ)⌋).toNat ∧
      (splitList (7/10 : ℚ) (3/20 : ℚ) ([ "d" ] : List String)).1.length +
          (splitList (7/10 : ℚ) (3/20 : ℚ) ([ "d" ] : List String)).2.1.length +
          (splitList (7/10 : ℚ) (3/20 : ℚ) ([ "d" ] : List String)).2.2.length =
        ([ "d" ] : List String).length)) := by
  refine ⟨⟨by decide, by decide, by norm_num, by norm_num, by norm_num⟩, ?_⟩
  exact C2_amended_split_sizes (7/10) (3/20) [ "a", "b", "c" ] [ "d" ]
    (by decide) (by decide) (by norm_num) (by norm_num) (by norm_num)

/-- Applying the recorded copies decomposes over list concatenation. -/
theorem applyCopies_append (fs : String → Option String) (xs ys : List SplitEvent)
    (p : String) :
    applyCopies fs (xs ++ ys) p = applyCopies (applyCopies fs xs) ys p := by
  induction xs generalizing fs with
  | nil => rfl
  | cons ev rest ih =>
    cases ev with
    | log t => exact ih fs
    | copy s d => exact ih _

/-- A path that no copy targets keeps its initial content: `shutil.copy`
never deletes or modifies anything else, and in particular never touches
the source files. -/
theorem applyCopies_not_dst (fs : String → Option String) (evs : List SplitEvent)
    (p : String) (h : ∀ s d, SplitEvent.copy s d ∈ evs → d ≠ p) :
    applyCopies fs evs p = fs p := by
  induction evs generalizing fs with
  | nil => rfl
  | cons ev rest ih =>
    cases ev with
    | log t => exact ih fs (fun s d hm => h s d (List.mem_cons_of_mem _ hm))
    | copy s d =>
      rw [show applyCopies fs (SplitEvent.copy s d :: rest) p =
        applyCopies (fun q => if q = d then fs s else fs q) rest p from rfl]
      rw [ih _ (fun s' d' hm => h s' d' (List.mem_cons_of_mem _ hm))]
      exact if_neg (fun hc => h s d (List.mem_cons_self _ _) (hc.symm))

/-- Every copy in one (split, label) group goes to
`dest/split/label/basename(src)`. -/
theorem copyGroup_mem {dest sp lab : String} {files : List String} {s d : String}
    (h : SplitEvent.copy s d ∈ copyGroup dest sp lab files) :
    s ∈ files ∧ d = pathJoin (pathJoin (pathJoin dest sp) lab) (basename s) := by
  unfold copyGroup at h
  rw [List.mem_map] at h
  obtain ⟨f, hf, heq⟩ := h
  injection heq with h1 h2
  subst h1
  exact ⟨hf, h2.symm⟩

/-- Every copy of the splitter targets `dest/split/label/basename(src)`
for one of the three splits and one of the two labels. -/
theorem split_data_copy_mem {shuffle : List String → List String}
    {fall noFall : List String} {dest : String} {tr vr : ℚ} {s d : String}
    (h : SplitEvent.copy s d ∈ split_data shuffle fall noFall dest tr vr) :
    ∃ sp lab, (sp = "train" ∨ sp = "val" ∨ sp = "test") ∧
      (lab = "fall" ∨ lab = "no_fall") ∧
      d = pathJoin (pathJoin (pathJoin dest sp) lab) (basename s) := by
  unfold split_data at h
  split at h
  · simp at h
  · split at h
    · simp at h
    · simp only [List.append_assoc, List.mem_append] at h
      rcases h with h | h | h | h | h | h
      · exact ⟨"train", "fall", Or.inl rfl, Or.inl rfl, (copyGroup_mem h).2⟩
      · exact ⟨"val", "fall", Or.inr (Or.inl rfl), Or.inl rfl, (copyGroup_mem h).2⟩
      · exact ⟨"test", "fall", Or.inr (Or.inr rfl), Or.inl rfl, (copyGroup_mem h).2⟩
      · exact ⟨"train", "no_fall", Or.inl rfl, Or.inr rfl, (copyGroup_mem h).2⟩
      · exact ⟨"val", "no_fall", Or.inr (Or.inl rfl), Or.inr rfl, (copyGroup_mem h).2⟩
      · exact ⟨"test", "no_fall", Or.inr (Or.inr rfl), Or.inr rfl, (copyGroup_mem h).2⟩

/-- C9: the splitter copies rather than moves.  Every copy call targets
`dest/split/label/basename(src)`; any path that is not one of the copy
destinations -- in particular every source file, as long as the
destination tree is disjoint from the sources -- is unchanged and still
present after the run; and when several copies share a destination (two
selected files with the same basename in the same split and label
group), the content at that destination after the run is the content of
the later copy's source: the later copy silently overwrites the earlier
one. -/
theorem C9_copy_semantics (shuffle : List String → List String)
    (fall noFall : List String) (dest : String) (tr vr : ℚ)
    (fs : String → Option String) :
    (∀ s d, SplitEvent.copy s d ∈ split_data shuffle fall noFall dest tr vr →
      ∃ sp lab, (sp = "train" ∨ sp = "val" ∨ sp = "test") ∧
        (lab = "fall" ∨ lab = "no_fall") ∧
        d = pathJoin (pathJoin (pathJoin dest sp) lab) (basename s)) ∧
    (∀ p, (∀ s d, SplitEvent.copy s d ∈ split_data shuffle fall noFall dest tr vr → d ≠ p) →
      applyCopies fs (split_data shuffle fall noFall dest tr vr) p = fs p) ∧
    (∀ pre mid post s1 s2 d,
      split_data shuffle fall noFall dest tr vr =
        pre ++ SplitEvent.copy s1 d :: mid ++ SplitEvent.copy s2 d :: post →
      (∀ s' d', SplitEvent.copy s' d' ∈ post → d' ≠ d) →
      (∀ s' d', SplitEvent.copy s' d' ∈ split_data shuffle fall noFall dest tr vr → d' ≠ s2) →
      applyCopies fs (split_data shuffle fall noFall dest tr vr) d = fs s2) := by
  refine ⟨fun s d h => split_data_copy_mem h, fun p h => applyCopies_not_dst fs _ p h, ?_⟩
  intro pre mid post s1 s2 d hdec hpost hsrc
  have hpre : ∀ s' d', SplitEvent.copy s' d' ∈ pre → d' ≠ s2 := by
    intro s' d' hm
    refine hsrc s' d' ?_
    rw [hdec]
    exact List.mem_append_left _ (List.mem_append_left _ hm)
  have hmid : ∀ s' d', SplitEvent.copy s' d' ∈ SplitEvent.copy s1 d :: mid → d' ≠ s2 := by
    intro s' d' hm
    refine hsrc s' d' ?_
    rw [hdec]
    exact List.mem_append_left _ (List.mem_append_right _ hm)
  rw [hdec, applyCopies_append]
  show applyCopies
    (fun q => if q = d then applyCopies fs (pre ++ SplitEvent.copy s1 d :: mid) s2
      else applyCopies fs (pre ++ SplitEvent.copy s1 d :: mid) q)
    post d = fs s2
  rw [applyCopies_not_dst _ post _ hpost]
  rw [if_pos rfl, applyCopies_append]
  rw [applyCopies_not_dst _ _ _ hmid, applyCopies_not_dst _ _ _ hpre]

/-- C9 witness: two selected fall files sharing the basename `x.jpg` are
both copied to `dest/train/fall/x.jpg`; the final content there is the
second source's content, and an untouched path keeps its content. -/
theorem C9_witness :
    (split_data id [ "a/x.jpg", "b/x.jpg" ] [ "c/y.jpg" ] "dest" 1 0 =
      [] ++ SplitEvent.copy "a/x.jpg" "dest/train/fall/x.jpg" ::
        [] ++ SplitEvent.copy "b/x.jpg" "dest/train/fall/x.jpg" ::
          [ SplitEvent.copy "c/y.jpg" "dest/train/no_fall/y.jpg" ]) ∧
    applyCopies (fun q => if q = "b/x.jpg" then some "contentB" else none)
        (split_data id [ "a/x.jpg", "b/x.jpg" ] [ "c/y.jpg" ] "dest" 1 0)
        "dest/train/fall/x.jpg" =
      (fun q => if q = "b/x.jpg" then some "contentB" else none) "b/x.jpg" := by
  have hevs : split_data id [ "a/x.jpg", "b/x.jpg" ] [ "c/y.jpg" ] "dest" 1 0 =
      [] ++ SplitEvent.copy "a/x.jpg" "dest/train/fall/x.jpg" ::
        [] ++ SplitEvent.copy "b/x.jpg" "dest/train/fall/x.jpg" ::
          [ SplitEvent.copy "c/y.jpg" "dest/train/no_fall/y.jpg" ] := by
    norm_num [split_data, splitList, pyTrunc]
    decide
  refine ⟨hevs, ?_⟩
  refine (C9_copy_semantics id [ "a/x.jpg", "b/x.jpg" ] [ "c/y.jpg" ] "dest" 1 0
    (fun q => if q = "b/x.jpg" then some "contentB" else none)).2.2
    [] [] [ SplitEvent.copy "c/y.jpg" "dest/train/no_fall/y.jpg" ]
    "a/x.jpg" "b/x.jpg" "dest/train/fall/x.jpg" hevs ?_ ?_
  · intro s' d' hm
    rw [List.mem_singleton] at hm
    injection hm with h1 h2
    subst h2
    decide
  · intro s' d' hm
    rw [hevs] at hm
    simp only [List.nil_append, List.mem_append, List.mem_cons,
      List.mem_singleton, List.not_mem_nil, or_false, false_or] at hm
    rcases hm with hm | hm | hm
    all_goals injection hm with h1 h2
    all_goals subst h2
    all_goals decide

end FallDetection
